import Mathlib

/-!
Shallow embedding of the core of `nestjs-piscina`: the method-interception
layer (`src/constants.ts`, `RunWithPiscinaExplorer`), the worker bootstrap
(`src/worker-core.ts`, `executeWorkerTask`), the call-stack based origin
encoder (`src/common.ts`, `callerFile`) and the worker entry-point selector
(`src/worker-path.provider.ts`, `WorkerPathProvider`).

JavaScript values that cross the relevant control-flow decisions are
modelled by the inductive `JSVal`; numbers are carried as rationals (the
numeric payloads of method bodies never influence control flow in the
embedded code).  Objects live in an explicit `Heap`, which records, for
each object, the hidden `REQUEST_CONTEXT_ID` field together with its
property attributes, so that `Object.defineProperty` semantics (including
the rejection of invalid re-definitions on non-configurable properties)
can be stated faithfully.  `ContextIdFactory.create` of the DI runtime
returns a fresh identifier on every call; it is determinised here as a
counter carried in the heap.
-/

/-- JavaScript runtime values, as far as the embedded control flow
inspects them: `typeof` tests, truthiness, and object identity. -/
inductive JSVal where
  | vNull : JSVal
  | vUndefined : JSVal
  | vNum : Rat → JSVal
  | vStr : String → JSVal
  | vBool : Bool → JSVal
  | vObj : Nat → JSVal
deriving DecidableEq

/-- JavaScript `typeof`.  Note `typeof null === "object"`, the quirk that
claim C10 is about. -/
def jsTypeof : JSVal → String
  | .vNull => "object"
  | .vUndefined => "undefined"
  | .vNum _ => "number"
  | .vStr _ => "string"
  | .vBool _ => "boolean"
  | .vObj _ => "object"

/-- The hidden `REQUEST_CONTEXT_ID` data property attached to a request
context object: its value (the numeric context identifier) and the three
property attributes passed to `Object.defineProperty`. -/
structure CtxField where
  value : Nat
  enumerable : Bool
  configurable : Bool
  writable : Bool
deriving DecidableEq

/-- A heap object, reduced to the single property the embedded code reads
and writes: the hidden context-identifier field. -/
structure JSObject where
  ctxField : Option CtxField
deriving DecidableEq

/-- The mutable state threaded through the request-scope machinery: the
objects (indexed by `JSVal.vObj` references) and the counter determinising
`ContextIdFactory.create`. -/
structure Heap where
  objs : List JSObject
  nextId : Nat
deriving DecidableEq

/-- Errors thrown by the embedded JavaScript: `TypeError`s raised by the
runtime, `new Error(msg)` values thrown by the library code, and values
thrown by user method bodies. -/
inductive JsError where
  | typeError : String → JsError
  | error : String → JsError
  | thrown : JSVal → JsError
deriving DecidableEq

/-- `ContextIdFactory.create()` of the DI runtime: a fresh identifier,
distinct from all previously minted ones (determinised by the counter). -/
def ContextIdFactory.create (h : Heap) : Nat × Heap :=
  (h.nextId, { h with nextId := h.nextId + 1 })

/-- Look up the hidden context field of the object behind `v`, when `v`
is a live object reference. -/
def Heap.ctxFieldOf (h : Heap) (v : JSVal) : Option CtxField :=
  match v with
  | .vObj r => (h.objs[r]?).bind (fun o => o.ctxField)
  | _ => none

/-- `ContextIdFactory.getByRequest(request)` of the DI runtime: falsy or
field-less requests get a freshly created identifier; a request already
carrying the hidden `REQUEST_CONTEXT_ID` field yields the stored
identifier. -/
def ContextIdFactory.getByRequest (v : JSVal) (h : Heap) : Nat × Heap :=
  match v with
  | .vObj r =>
    match (h.objs[r]?).bind (fun o => o.ctxField) with
    | some f => (f.value, h)
    | none => ContextIdFactory.create h
  | _ => ContextIdFactory.create h

/-- Overwrite (or install) the context field of object `r`. -/
def Heap.setCtxField (h : Heap) (r : Nat) (fld : CtxField) : Heap :=
  { h with objs := h.objs.set r { ctxField := some fld } }

/-- `Object.defineProperty(v, REQUEST_CONTEXT_ID, fld)`.  On a non-object
receiver it throws a `TypeError`.  On an existing non-configurable data
property it applies the ES validation rules: the new descriptor must keep
`configurable` false, keep `enumerable` unchanged and, when the property
is also non-writable, keep `writable` false and the same value; any other
re-definition throws a `TypeError`. -/
def definePropertyCtx (h : Heap) (v : JSVal) (fld : CtxField) : Except JsError Heap :=
  match v with
  | .vObj r =>
    match h.objs[r]? with
    | none => .error (.typeError "defineProperty on a dangling reference")
    | some o =>
      match o.ctxField with
      | none => .ok (h.setCtxField r fld)
      | some ex =>
        if ex.configurable then .ok (h.setCtxField r fld)
        else if fld.configurable = false ∧ fld.enumerable = ex.enumerable ∧
            (ex.writable = true ∨ (fld.writable = false ∧ fld.value = ex.value)) then
          .ok (h.setCtxField r fld)
        else .error (.typeError "Cannot redefine property")
  | _ => .error (.typeError "Object.defineProperty called on non-object or null")

/-- The context-identifier derivation prefix shared verbatim by the
request-scoped stub in `src/constants.ts` (lines 142-153) and by
`runWithPiscinaFunction` in `src/worker-core.ts` (lines 59-70):

```
let contextId: ContextId;
if (typeof contextArg === "object") {
  contextId = ContextIdFactory.getByRequest(contextArg);
  Object.defineProperty(contextArg, REQUEST_CONTEXT_ID, {
    value: contextId, enumerable: false, configurable: false, writable: false,
  });
} else {
  contextId = ContextIdFactory.create();
}
```
Returns the derived identifier and the updated heap, or the thrown
`TypeError`. -/
def deriveAndAttachContextId (contextArg : JSVal) (h : Heap) :
    Except JsError (Nat × Heap) :=
  if jsTypeof contextArg = "object" then do
    let (cid, h1) := ContextIdFactory.getByRequest contextArg h
    let h2 ← definePropertyCtx h1 contextArg
      { value := cid, enumerable := false, configurable := false, writable := false }
    pure (cid, h2)
  else
    pure (ContextIdFactory.create h)

/-- A property found on a provider instance: either a method (a function
from the argument list to a result or a thrown error; bodies are pure in
the heap, which the embedded library code never lets them touch) or a
non-function value. -/
inductive InstProp where
  | jsFunc : (List JSVal → Except JsError JSVal) → InstProp
  | jsVal : JSVal → InstProp

/-- A class definition as obtainable from a fresh module load: its name
(`constructor.name`), its prototype properties, and the per-method
`@RunWithPiscina` metadata (`RunWithPiscinaMetadata.filename`) attached by
the decorator at class-definition time. -/
structure ClassDef where
  className : String
  methods : List (String × InstProp)
  runMeta : List (String × String)

/-- JavaScript property lookup `instance[name]` on an instance of `c`. -/
def getProp (c : ClassDef) (name : String) : Option InstProp :=
  (c.methods.find? (fun p => p.1 == name)).map (fun p => p.2)

/-- `reflector.get(PISCINA_META, instance[name])`: the filename recorded
by the `@RunWithPiscina` decorator on that method, if any. -/
def lookupRunMeta (c : ClassDef) (name : String) : Option String :=
  (c.runMeta.find? (fun p => p.1 == name)).map (fun p => p.2)

/-- `metadataScanner.getAllMethodNames(instance)`. -/
def methodNames (c : ClassDef) : List String :=
  c.methods.map (fun p => p.1)

/-- `TokenIdentifier` of `src/worker-core.ts`: originating file plus
exported name, the serialisable cross-thread identity of a class. -/
structure TokenIdentifier where
  filename : String
  tokenName : String
deriving DecidableEq

/-- A DI module as the worker reconstructs it: its name, the
`PiscinaEnabledMetadata.filename` attached by `@PiscinaEnabled` (when
present), and its providers, each with the scope attribute that
`wrapper.isDependencyTreeStatic()` reports. -/
structure ModuleDef where
  name : String
  enabledMeta : Option String
  providers : List (ClassDef × Bool)

/-- A provider instance wrapper inside the worker's freshly constructed
application context. -/
structure WWrapper where
  classDef : ClassDef
  hostName : Option String
  isDependencyTreeStatic : Bool

/-- `NestFactory.createApplicationContext(moduleToken)` followed by
`discoveryService.getProviders()`: the fresh, isolated context contains
exactly the declared module's providers, each hosted by that module. -/
def freshContext (m : ModuleDef) : List WWrapper :=
  m.providers.map (fun p => ⟨p.1, some m.name, p.2⟩)

/-- Observable outcome of one worker-side task: the settled result, whether
`app.close()` ran, which user methods were actually entered, and the heap. -/
structure Outcome where
  result : Except JsError JSVal
  appClosed : Bool
  invoked : List String
  heap : Heap

/-- The value assigned to `runWithPiscinaFunction` in
`src/worker-core.ts`: in the source it is typed `any`, and the later
`typeof runWithPiscinaFunction !== "function"` test distinguishes a
function from anything else. -/
inductive JsCallable where
  | fn : (List JSVal → Heap → Except JsError JSVal × Heap × List String) → JsCallable
  | notAFn : JsCallable

/-- `(wrapper.instance[methodName] as Function).bind(wrapper.instance)`.
When the property is absent, reading `.bind` of `undefined` throws a
`TypeError`; when it is a non-function value, its `.bind` member is
`undefined` and calling that throws a `TypeError`.  Only a genuine
function yields a bound function. -/
def jsBind (p : Option InstProp) : Except JsError (List JSVal → Except JsError JSVal) :=
  match p with
  | some (.jsFunc f) => .ok f
  | some (.jsVal _) => .error (.typeError "bind is not a function")
  | none => .error (.typeError "Cannot read properties of undefined (reading bind)")

/-- The request-scoped `runWithPiscinaFunction` closure of
`src/worker-core.ts` lines 58-84: derive and attach the context
identifier from the first argument, register the request with the DI
runtime (an external side effect with no observable in this model), load
a per-context instance of the same class, and invoke
`contextInstance[methodName].call(contextInstance, contextArg, ...args)`;
a missing or non-function property makes the `.call` access throw a
`TypeError`. -/
def requestScopedRun (w : WWrapper) (methodName : String) :
    List JSVal → Heap → Except JsError JSVal × Heap × List String :=
  fun allArgs h =>
    let contextArg := allArgs.headD .vUndefined
    let rest := allArgs.tail
    match deriveAndAttachContextId contextArg h with
    | .error e => (.error e, h, [])
    | .ok (_cid, h1) =>
      let contextInstance := w.classDef
      match getProp contextInstance methodName with
      | some (.jsFunc f) => (f (contextArg :: rest), h1, [methodName])
      | some (.jsVal _) => (.error (.typeError "call is not a function"), h1, [])
      | none =>
        (.error (.typeError "Cannot read properties of undefined (reading call)"), h1, [])

/-- `executeWorkerTask` of `src/worker-core.ts`: build the fresh context
from the module token, locate the provider wrapper by token, branch on
the scope classification, run the method, and close the context after a
successful await (the close on line 101 is only reached on the success
path). -/
def executeWorkerTask (moduleToken : ModuleDef) (providerToken : ClassDef)
    (methodName : String) (args : List JSVal) (h : Heap) : Outcome :=
  let ctxProviders := freshContext moduleToken
  match ctxProviders.find? (fun w => w.classDef.className == providerToken.className) with
  | none =>
    ⟨.error (.error ("Provider with token " ++ providerToken.className ++
      " not found in the application context")), false, [], h⟩
  | some wrapper =>
    match wrapper.hostName with
    | none =>
      ⟨.error (.error ("Module for provider " ++ providerToken.className ++ " not found")),
        false, [], h⟩
    | some _ =>
      let isRequestScoped := ! wrapper.isDependencyTreeStatic
      let rwpf : Except JsError JsCallable :=
        if isRequestScoped then .ok (.fn (requestScopedRun wrapper methodName))
        else (jsBind (getProp wrapper.classDef methodName)).map
          (fun f => .fn (fun as hh => (f as, hh, [methodName])))
      match rwpf with
      | .error e => ⟨.error e, false, [], h⟩
      | .ok callable =>
        match callable with
        | .notAFn =>
          ⟨.error (.error ("Method " ++ methodName ++ " not found in class " ++
            providerToken.className)), false, [], h⟩
        | .fn f =>
          match f args h with
          | (.ok v, h2, inv) => ⟨.ok v, true, inv, h2⟩
          | (.error e, h2, inv) => ⟨.error e, false, inv, h2⟩

/-- A main-thread provider instance wrapper as the explorer sees it:
`wrapper.instance` (absent when the wrapper has no object instance, which
`onModuleInit` skips), `wrapper.host`, and the result of
`wrapper.isDependencyTreeStatic()`. -/
structure MainWrapper where
  inst : Option ClassDef
  host : Option ModuleDef
  isDependencyTreeStatic : Bool

/-- The interception-time data captured once per patched method by
`RunWithPiscinaExplorer.patchMethod`: the two token identifiers and the
method name, closed over by the installed stub; plus the scope
classification that selects which stub shape is installed. -/
structure Stub where
  providerIdentifier : TokenIdentifier
  moduleIdentifier : TokenIdentifier
  methodName : String
  isRequestScoped : Bool
deriving DecidableEq

/-- `RunWithPiscinaExplorer.patchMethod` (src/constants.ts lines 86-134):
require a host module, require its `@PiscinaEnabled` metadata, then build
the two token identifiers (`providerFilename` comes from the method's own
`@RunWithPiscina` metadata, the class name from
`instance.constructor.name`; the module identifier from the module
metadata filename and `module.name`) and classify the scope. -/
def patchMethod (w : MainWrapper) (c : ClassDef) (providerFilename : String)
    (methodName : String) : Except String Stub :=
  match w.host with
  | none => .error ("Module for provider " ++ c.className ++ " not found")
  | some m =>
    match m.enabledMeta with
    | none => .error ("Module " ++ m.name ++ " does not have @PiscinaEnabled decorator")
    | some moduleFilename =>
      .ok { providerIdentifier := ⟨providerFilename, c.className⟩,
            moduleIdentifier := ⟨moduleFilename, m.name⟩,
            methodName := methodName,
            isRequestScoped := ! w.isDependencyTreeStatic }

/-- The loop body of `scanProvider`: walk the scanned method names in
order, skip non-function properties and methods without `@RunWithPiscina`
metadata, and patch the rest; an exception thrown by `patchMethod` inside
the `forEach` callback aborts the whole scan. -/
def scanMethods (w : MainWrapper) (c : ClassDef) : List String → Except String (List Stub)
  | [] => .ok []
  | name :: rest =>
    match getProp c name with
    | some (.jsFunc _) =>
      match lookupRunMeta c name with
      | some fname => do
          let s ← patchMethod w c fname name
          let more ← scanMethods w c rest
          pure (s :: more)
      | none => scanMethods w c rest
    | _ => scanMethods w c rest

/-- `RunWithPiscinaExplorer.scanProvider`. -/
def scanProvider (w : MainWrapper) : Except String (List Stub) :=
  match w.inst with
  | none => .ok []
  | some c => scanMethods w c (methodNames c)

/-- The provider loop of `onModuleInit`. -/
def scanAll : List MainWrapper → Except String (List Stub)
  | [] => .ok []
  | w :: rest => do
    let s ← scanProvider w
    let more ← scanAll rest
    pure (s ++ more)

/-- `RunWithPiscinaExplorer.onModuleInit`: a worker thread returns
immediately without patching; the main thread scans every provider at
startup, and any error thrown while patching escapes `onModuleInit`
(fatal at startup). -/
def onModuleInit (isMainThread : Bool) (providers : List MainWrapper) :
    Except String (List Stub) :=
  if isMainThread then scanAll providers else .ok []

/-- `WorkerArgs` of `src/worker-core.ts`: the Dispatch Envelope. -/
structure WorkerArgs where
  moduleIdentifier : TokenIdentifier
  providerIdentifier : TokenIdentifier
  methodName : String
  args : List JSVal
deriving DecidableEq

/-- The envelope a stub submits for one call: the interception-time
identifiers and method name plus this call's arguments. -/
def mkEnvelope (s : Stub) (args : List JSVal) : WorkerArgs :=
  ⟨s.moduleIdentifier, s.providerIdentifier, s.methodName, args⟩

/-- What a fresh worker-side module load can resolve: the named module
and provider exports, keyed by token identifier (filename plus exported
name).  This is the interface of `import(filename)[tokenName]` /
`require(filename)[tokenName]` in the two worker entry files. -/
structure Registry where
  modules : TokenIdentifier → Option ModuleDef
  classes : TokenIdentifier → Option ClassDef

/-- The worker entry point (both variants behave identically): resolve
the module and provider tokens from their identifiers, then run
`executeWorkerTask`; its `catch` clause logs and rethrows, leaving the
outcome unchanged.  A failed resolution surfaces as a rejection. -/
def workerMain (reg : Registry) (wa : WorkerArgs) (h : Heap) : Outcome :=
  match reg.modules wa.moduleIdentifier, reg.classes wa.providerIdentifier with
  | some m, some c => executeWorkerTask m c wa.methodName wa.args h
  | _, _ => ⟨.error (.typeError "worker-side token resolution failed"), false, [], h⟩

/-- The full patched-call path for one invocation of a patched static
method: the installed stub builds the envelope from its captured
identifiers and the current arguments, `PiscinaService.runFunction`
submits it to the pool, and the pool hands it to the worker entry point.
The stub's own `try`/`catch` logs and rethrows, so it is the identity on
the settled outcome. -/
def patchedCall (reg : Registry) (s : Stub) (args : List JSVal) (h : Heap) : Outcome :=
  workerMain reg (mkEnvelope s args) h

/-- Calling the undecorated original method body locally:
`instance[methodName](...args)` on an instance of `c`. -/
def localInvoke (c : ClassDef) (methodName : String) (args : List JSVal) :
    Except JsError JSVal :=
  match getProp c methodName with
  | some (.jsFunc f) => f args
  | some (.jsVal _) => .error (.typeError "call target is not a function")
  | none => .error (.typeError "call target is undefined")

/-- `callerFile` of `src/common.ts`: walk the captured call stack (each
frame's `getFileName()`, which may be absent) and return the first file
that is truthy (JavaScript: non-empty), not the encoder's own file and
not the supplied immediate caller's file; return nothing when the walk
finds no such frame. -/
def callerFile (ownFilename callerFilename : String) :
    List (Option String) → Option String
  | [] => none
  | site :: rest =>
    match site with
    | some file =>
      if file != "" && file != ownFilename && file != callerFilename then some file
      else callerFile ownFilename callerFilename rest
    | none => callerFile ownFilename callerFilename rest

/-- A stack frame qualifies when it carries a source file that is
non-empty (truthy) and belongs to neither the encoder's own file nor the
immediate caller's file — exactly the condition of the loop in
`callerFile`. -/
def qualifiesFrame (ownFilename callerFilename : String) (site : Option String) : Bool :=
  match site with
  | some file => file != "" && file != ownFilename && file != callerFilename
  | none => false

/-- The environment `WorkerPathProvider.useFactory` inspects: whether
`package.json` exists and parses, its `type` field, whether the runtime
fallback `typeof module === "undefined"` holds, whether the running file
is TypeScript, the directory of the provider file, and which paths exist
on disk. -/
structure WorkerPathEnv where
  packageJsonExists : Bool
  packageJsonParses : Bool
  packageJsonType : Option String
  moduleIsUndefined : Bool
  filenameEndsWithTs : Bool
  dirname : String
  fileExists : String → Bool

/-- The `isESM` flag computed by the factory: when `package.json` exists
and parses, it is `type === "module"`; when reading or parsing throws,
the `catch` block falls back to the runtime test
`typeof module === "undefined"`; when the file is absent it stays
`false`. -/
def isESMOf (e : WorkerPathEnv) : Bool :=
  if e.packageJsonExists then
    if e.packageJsonParses then e.packageJsonType == some "module"
    else e.moduleIsUndefined
  else false

/-- The worker base name the factory selects. -/
def selectedWorkerName (e : WorkerPathEnv) : String :=
  if isESMOf e then "run-with-piscina.worker" else "run-with-piscina.worker.cjs"

/-- The extension matching the running code. -/
def selectedExtension (e : WorkerPathEnv) : String :=
  if e.filenameEndsWithTs then "ts" else "js"

/-- The resolved worker path. -/
def selectedPath (e : WorkerPathEnv) : String :=
  e.dirname ++ "/" ++ selectedWorkerName e ++ "." ++ selectedExtension e

/-- `WorkerPathProvider.useFactory` of `src/worker-path.provider.ts`:
select the worker file, return it when it exists, and otherwise throw
`Worker file not found: ...` (fatal at startup, as the provider is
resolved while the application context is being created). -/
def workerPathFactory (e : WorkerPathEnv) : Except String String :=
  let workerPath := selectedPath e
  if e.fileExists workerPath then .ok workerPath
  else .error ("Worker file not found: " ++ workerPath)

/-- The configuration the claim describes as selecting the ESM variant:
`package.json` is present, well-formed, and declares `type: "module"`. -/
def declaresModuleType (e : WorkerPathEnv) : Bool :=
  e.packageJsonExists && e.packageJsonParses && (e.packageJsonType == some "module")

/-! Concrete fixtures mirroring the test application
(`src/test/example.service.ts`, `src/test/request-scope-example.service.ts`,
`src/test/example.module.ts`): a static-scoped `ExampleService` with an
offloaded `pi` method, a throwing provider, and a request-scoped
provider, all hosted by `@PiscinaEnabled` modules.  Method bodies are
opaque computations; their numeric content does not matter to the
dispatch machinery. -/

/-- The body of `ExampleService.pi`, standing for the undecorated Leibniz
computation. -/
def piBody : List JSVal → Except JsError JSVal :=
  fun _ => .ok (.vNum (31415 / 10000))

/-- A method body that throws `Error("boom")`. -/
def boomBody : List JSVal → Except JsError JSVal :=
  fun _ => .error (.thrown (.vStr "boom"))

def ExampleService : ClassDef :=
  ⟨"ExampleService", [("pi", .jsFunc piBody)], [("pi", "/test/example.service.ts")]⟩

def ExampleModule : ModuleDef :=
  ⟨"ExampleModule", some "/test/example.module.ts", [(ExampleService, true)]⟩

def BoomService : ClassDef :=
  ⟨"BoomService", [("explode", .jsFunc boomBody)], [("explode", "/test/boom.service.ts")]⟩

def BoomModule : ModuleDef :=
  ⟨"BoomModule", some "/test/boom.module.ts", [(BoomService, true)]⟩

def RequestScopeExampleService : ClassDef :=
  ⟨"RequestScopeExampleService", [("pi", .jsFunc piBody)],
    [("pi", "/test/request-scope-example.service.ts")]⟩

def RequestScopeModule : ModuleDef :=
  ⟨"RequestScopeModule", some "/test/request-scope.module.ts",
    [(RequestScopeExampleService, false)]⟩

/-- A module that lacks the `@PiscinaEnabled` marker while hosting a
provider with an offloaded method. -/
def NakedModule : ModuleDef := ⟨"NakedModule", none, [(ExampleService, true)]⟩

/-- The registry of a deployment containing the example module and
service at their recorded origin files. -/
def exampleRegistry : Registry :=
  ⟨fun t => if t = ⟨"/test/example.module.ts", "ExampleModule"⟩ then some ExampleModule else none,
   fun t => if t = ⟨"/test/example.service.ts", "ExampleService"⟩ then some ExampleService else none⟩

/-- The main-thread wrapper of `ExampleService` inside `ExampleModule`. -/
def exampleWrapper : MainWrapper := ⟨some ExampleService, some ExampleModule, true⟩

/-- A main-thread wrapper whose host module lacks `@PiscinaEnabled`. -/
def nakedWrapper : MainWrapper := ⟨some ExampleService, some NakedModule, true⟩

deriving instance DecidableEq for Except

deriving instance DecidableEq for Outcome

/-- C2: the claim requires `app.close()` to run on every exit path of
`executeWorkerTask`, including the throwing one.  The code closes the
context only after a successful `await` (worker-core.ts line 101), so a
dispatched call whose method throws propagates the error with the fresh
application context still open: here `BoomService.explode` throws
`Error("boom")`, the method is invoked, the error propagates verbatim,
and `appClosed` stays `false` — while on the success path (`ExampleService.pi`)
the context is closed. -/
theorem executeWorkerTask_skips_context_close_when_method_throws :
    (executeWorkerTask BoomModule BoomService "explode" [] ⟨[], 0⟩).result =
      .error (.thrown (.vStr "boom")) ∧
    (executeWorkerTask BoomModule BoomService "explode" [] ⟨[], 0⟩).invoked = ["explode"] ∧
    (executeWorkerTask BoomModule BoomService "explode" [] ⟨[], 0⟩).appClosed = false ∧
    (executeWorkerTask ExampleModule ExampleService "pi" [.vNum 10000] ⟨[], 0⟩).appClosed = true :=
  ⟨rfl, rfl, rfl, rfl⟩

/-- C6: when the resolved provider instance has no function under
`methodName`, the worker does reject — but with a raw `TypeError` raised
by reading `.bind` (static branch, worker-core.ts line 86) or `.call`
(request-scoped branch, line 79) on the missing property, not with the
descriptive `Method ... not found in class ...` error of lines 91-95,
which is unreachable: by the time that check runs, the static branch has
already thrown and the request-scoped branch always holds a function. -/
theorem missing_method_raises_raw_type_error_not_descriptive :
    (executeWorkerTask ExampleModule ExampleService "nope" [] ⟨[], 0⟩).result =
      .error (.typeError "Cannot read properties of undefined (reading bind)") ∧
    (executeWorkerTask RequestScopeModule RequestScopeExampleService "nope"
        [.vObj 0] ⟨[⟨none⟩], 0⟩).result =
      .error (.typeError "Cannot read properties of undefined (reading call)") ∧
    (executeWorkerTask ExampleModule ExampleService "nope" [] ⟨[], 0⟩).result ≠
      .error (.error "Method nope not found in class ExampleService") ∧
    (executeWorkerTask RequestScopeModule RequestScopeExampleService "nope"
        [.vObj 0] ⟨[⟨none⟩], 0⟩).result ≠
      .error (.error "Method nope not found in class RequestScopeExampleService") ∧
    (executeWorkerTask ExampleModule ExampleService "nope" [] ⟨[], 0⟩).invoked = [] ∧
    (executeWorkerTask RequestScopeModule RequestScopeExampleService "nope"
        [.vObj 0] ⟨[⟨none⟩], 0⟩).invoked = [] :=
  ⟨rfl, rfl, by decide, by decide, rfl, rfl⟩

/-- C10: `typeof null === "object"`, so a `null` first argument to a
request-scoped stub is classified as a request context object; the stub
then reaches `Object.defineProperty(null, REQUEST_CONTEXT_ID, ...)`,
which throws a `TypeError`, instead of taking the non-object branch.
Every first argument whose `typeof` is not `"object"` (numbers, strings,
`undefined`, booleans) takes the non-object branch and receives a freshly
created context identifier. -/
theorem null_context_arg_takes_object_branch_and_throws (h : Heap) :
    jsTypeof .vNull = "object" ∧
    deriveAndAttachContextId .vNull h =
      .error (.typeError "Object.defineProperty called on non-object or null") ∧
    ∀ v : JSVal, jsTypeof v ≠ "object" →
      deriveAndAttachContextId v h = .ok (ContextIdFactory.create h) := by
  refine ⟨rfl, rfl, ?_⟩
  intro v hv
  cases v <;> first
    | rfl
    | exact absurd rfl hv

theorem null_context_arg_takes_object_branch_and_throws_witness :
    deriveAndAttachContextId .vNull ⟨[], 0⟩ =
      .error (.typeError "Object.defineProperty called on non-object or null") ∧
    deriveAndAttachContextId (.vNum 1) ⟨[], 0⟩ = .ok (ContextIdFactory.create ⟨[], 0⟩) :=
  ⟨(null_context_arg_takes_object_branch_and_throws ⟨[], 0⟩).2.1,
   (null_context_arg_takes_object_branch_and_throws ⟨[], 0⟩).2.2 (.vNum 1) (by decide)⟩

/-- C5: when no provider wrapper in the worker's fresh application
context carries the dispatched provider token, `executeWorkerTask`
rejects with the descriptive error naming the token, and no method body
is invoked (`invoked = []`); the heap is untouched. -/
theorem unresolvable_provider_rejects_without_invocation
    (m : ModuleDef) (c : ClassDef) (methodName : String) (args : List JSVal) (h : Heap)
    (habs : ∀ p ∈ m.providers, p.1.className ≠ c.className) :
    executeWorkerTask m c methodName args h =
      ⟨.error (.error ("Provider with token " ++ c.className ++
        " not found in the application context")), false, [], h⟩ := by
  have hfind : (freshContext m).find? (fun w => w.classDef.className == c.className) = none := by
    rw [List.find?_eq_none]
    intro w hw
    obtain ⟨p, hp, rfl⟩ := List.mem_map.1 hw
    simpa using habs p hp
  simp [executeWorkerTask, hfind]

theorem unresolvable_provider_rejects_without_invocation_witness :
    executeWorkerTask ExampleModule BoomService "explode" [] ⟨[], 0⟩ =
      ⟨.error (.error ("Provider with token " ++ BoomService.className ++
        " not found in the application context")), false, [], ⟨[], 0⟩⟩ :=
  unresolvable_provider_rejects_without_invocation ExampleModule BoomService "explode" [] ⟨[], 0⟩
    (by decide)

lemma getByRequest_no_field (h : Heap) (r : Nat) (o : JSObject)
    (hr : h.objs[r]? = some o) (hfld : o.ctxField = none) :
    ContextIdFactory.getByRequest (.vObj r) h = ContextIdFactory.create h := by
  simp [ContextIdFactory.getByRequest, hr, hfld]

lemma getByRequest_with_field (h : Heap) (r : Nat) (fld : CtxField)
    (hr : h.objs[r]? = some ⟨some fld⟩) :
    ContextIdFactory.getByRequest (.vObj r) h = (fld.value, h) := by
  simp [ContextIdFactory.getByRequest, hr]

/-- C3: deriving a context identifier from the same request context
object twice yields the same identifier both times.  The first derivation
mints a fresh identifier and attaches it as a non-enumerable,
non-configurable, non-writable field; the second derivation finds the
stored field, returns the stored identifier, leaves the heap unchanged
(in particular it mints no new identifier: the same heap, with the same
fresh-identifier counter, comes back). -/
theorem context_id_derivation_idempotent
    (h : Heap) (r : Nat) (o : JSObject)
    (hr : h.objs[r]? = some o) (hfld : o.ctxField = none) :
    ∃ cid h1,
      deriveAndAttachContextId (.vObj r) h = .ok (cid, h1) ∧
      deriveAndAttachContextId (.vObj r) h1 = .ok (cid, h1) ∧
      h1.ctxFieldOf (.vObj r) =
        some { value := cid, enumerable := false, configurable := false, writable := false } ∧
      h1.nextId = h.nextId + 1 := by
  have hlen : r < h.objs.length := by
    rcases List.getElem?_eq_some.1 hr with ⟨hl, _⟩
    exact hl
  refine ⟨h.nextId,
    ⟨h.objs.set r ⟨some ⟨h.nextId, false, false, false⟩⟩, h.nextId + 1⟩, ?_, ?_, ?_, rfl⟩
  · have hbump : ({ h with nextId := h.nextId + 1 } : Heap).objs[r]? = some o := hr
    simp [deriveAndAttachContextId, jsTypeof, ContextIdFactory.create,
      getByRequest_no_field h r o hr hfld, definePropertyCtx, hbump, hfld,
      Heap.setCtxField]
  · have hset : (h.objs.set r ⟨some ⟨h.nextId, false, false, false⟩⟩)[r]? =
        some ⟨some ⟨h.nextId, false, false, false⟩⟩ := by
      exact List.getElem?_set_self (by simpa using hlen)
    have hget := getByRequest_with_field
      ⟨h.objs.set r ⟨some ⟨h.nextId, false, false, false⟩⟩, h.nextId + 1⟩ r
      ⟨h.nextId, false, false, false⟩ hset
    simp [deriveAndAttachContextId, jsTypeof, hget, definePropertyCtx, hset,
      Heap.setCtxField, List.set_set]
  · have hset : (h.objs.set r ⟨some ⟨h.nextId, false, false, false⟩⟩)[r]? =
        some ⟨some ⟨h.nextId, false, false, false⟩⟩ := by
      exact List.getElem?_set_self (by simpa using hlen)
    simp [Heap.ctxFieldOf, hset]

theorem context_id_derivation_idempotent_witness :
    ∃ cid h1,
      deriveAndAttachContextId (.vObj 0) ⟨[⟨none⟩], 5⟩ = .ok (cid, h1) ∧
      deriveAndAttachContextId (.vObj 0) h1 = .ok (cid, h1) ∧
      h1.ctxFieldOf (.vObj 0) =
        some { value := cid, enumerable := false, configurable := false, writable := false } ∧
      h1.nextId = (⟨[⟨none⟩], 5⟩ : Heap).nextId + 1 :=
  context_id_derivation_idempotent ⟨[⟨none⟩], 5⟩ 0 ⟨none⟩ rfl rfl

/-- The stub that `patchMethod` installs for `ExampleService.pi`. -/
def exampleStub : Stub :=
  ⟨⟨"/test/example.service.ts", "ExampleService"⟩,
   ⟨"/test/example.module.ts", "ExampleModule"⟩, "pi", false⟩

/-- C9: the Dispatch Envelope identifiers are computed exactly once, at
interception time, from the method metadata, the instance constructor
name and the module metadata; every envelope the installed stub builds
carries those same two identifiers and the same method name, and only
the `args` component varies between calls. -/
theorem dispatch_envelope_identifiers_invariant_across_calls
    (w : MainWrapper) (c : ClassDef) (m : ModuleDef)
    (providerFilename moduleFilename mname : String) (s : Stub)
    (hhost : w.host = some m) (hmeta : m.enabledMeta = some moduleFilename)
    (hp : patchMethod w c providerFilename mname = .ok s) :
    (∀ a1 a2 : List JSVal,
      (mkEnvelope s a1).providerIdentifier = (mkEnvelope s a2).providerIdentifier ∧
      (mkEnvelope s a1).moduleIdentifier = (mkEnvelope s a2).moduleIdentifier ∧
      (mkEnvelope s a1).methodName = (mkEnvelope s a2).methodName) ∧
    (∀ a : List JSVal, (mkEnvelope s a).args = a) ∧
    s.providerIdentifier = ⟨providerFilename, c.className⟩ ∧
    s.moduleIdentifier = ⟨moduleFilename, m.name⟩ ∧
    s.methodName = mname := by
  have hs : s = { providerIdentifier := ⟨providerFilename, c.className⟩,
                  moduleIdentifier := ⟨moduleFilename, m.name⟩,
                  methodName := mname,
                  isRequestScoped := ! w.isDependencyTreeStatic } := by
    simp [patchMethod, hhost, hmeta] at hp
    exact hp.symm
  subst hs
  exact ⟨fun _ _ => ⟨rfl, rfl, rfl⟩, fun _ => rfl, rfl, rfl, rfl⟩

theorem dispatch_envelope_identifiers_invariant_across_calls_witness :
    (mkEnvelope exampleStub []).providerIdentifier =
      (mkEnvelope exampleStub [.vNum 1]).providerIdentifier ∧
    (mkEnvelope exampleStub []).moduleIdentifier =
      (mkEnvelope exampleStub [.vNum 1]).moduleIdentifier ∧
    (mkEnvelope exampleStub []).methodName = (mkEnvelope exampleStub [.vNum 1]).methodName ∧
    (mkEnvelope exampleStub [.vNum 1]).args = [.vNum 1] ∧
    exampleStub.providerIdentifier = ⟨"/test/example.service.ts", ExampleService.className⟩ :=
  have h := dispatch_envelope_identifiers_invariant_across_calls
    exampleWrapper ExampleService ExampleModule
    "/test/example.service.ts" "/test/example.module.ts" "pi" exampleStub rfl rfl rfl
  ⟨(h.1 [] [.vNum 1]).1, (h.1 [] [.vNum 1]).2.1, (h.1 [] [.vNum 1]).2.2,
   h.2.1 [.vNum 1], h.2.2.1⟩

/-- C1: for a static-scoped provider, the full offloaded path — the
patched stub packaging the envelope, the pool handing it to the worker
entry point, token resolution from the registry, and
`executeWorkerTask`'s static branch — settles with exactly the value (or
error) of the undecorated original method body applied to the same
arguments.  The hypotheses are the Token Identifier invariant: the
identifiers captured at interception time resolve, in a fresh load, to
the module and to the provider class actually hosted by it. -/
theorem static_offload_refines_undecorated_call
    (reg : Registry) (s : Stub) (args : List JSVal) (h : Heap)
    (m : ModuleDef) (c : ClassDef) (w : WWrapper)
    (f : List JSVal → Except JsError JSVal)
    (hm : reg.modules s.moduleIdentifier = some m)
    (hc : reg.classes s.providerIdentifier = some c)
    (hw : (freshContext m).find? (fun x => x.classDef.className == c.className) = some w)
    (hstatic : w.isDependencyTreeStatic = true)
    (hfn : getProp w.classDef s.methodName = some (.jsFunc f)) :
    (patchedCall reg s args h).result = localInvoke w.classDef s.methodName args ∧
    (patchedCall reg s args h).result = f args := by
  have hmem : w ∈ freshContext m := List.mem_of_find?_eq_some hw
  have hhost : w.hostName = some m.name := by
    obtain ⟨p, _, rfl⟩ := List.mem_map.1 hmem
    rfl
  have hres : (patchedCall reg s args h).result = f args := by
    simp only [patchedCall, workerMain, mkEnvelope, hm, hc, executeWorkerTask, hw, hhost,
      hstatic, hfn, jsBind, Except.map, Bool.not_true]
    cases hf : f args with
    | ok v => simp [hf]
    | error e => simp [hf]
  refine ⟨?_, hres⟩
  rw [hres, localInvoke, hfn]

theorem static_offload_refines_undecorated_call_witness :
    (patchedCall exampleRegistry exampleStub [.vNum 10000] ⟨[], 0⟩).result =
      localInvoke ExampleService "pi" [.vNum 10000] ∧
    (patchedCall exampleRegistry exampleStub [.vNum 10000] ⟨[], 0⟩).result =
      piBody [.vNum 10000] :=
  static_offload_refines_undecorated_call exampleRegistry exampleStub [.vNum 10000] ⟨[], 0⟩
    ExampleModule ExampleService ⟨ExampleService, some "ExampleModule", true⟩ piBody
    rfl rfl rfl rfl rfl

/-- C7: `callerFile` returns the source file of the first stack frame
that carries a (truthy) source file belonging to neither the encoder's
own file nor the supplied immediate caller's file, skipping every frame
of those two files (and frames without a file name, which have no source
file to return); when no qualifying frame exists the walk falls off the
stack and the result is `undefined`. -/
theorem callerFile_returns_first_qualifying_frame (own caller : String) :
    (∀ (pre post : List (Option String)) (f : String),
      (∀ s ∈ pre, qualifiesFrame own caller s = false) →
      qualifiesFrame own caller (some f) = true →
      callerFile own caller (pre ++ some f :: post) = some f) ∧
    (∀ stack : List (Option String),
      (∀ s ∈ stack, qualifiesFrame own caller s = false) →
      callerFile own caller stack = none) := by
  constructor
  · intro pre post f hpre hf
    induction pre with
    | nil =>
      have hf' : (f != "" && f != own && f != caller) = true := hf
      simp [callerFile, hf']
    | cons s rest ih =>
      have hs := hpre s (List.mem_cons_self s rest)
      have hrest : ∀ x ∈ rest, qualifiesFrame own caller x = false :=
        fun x hx => hpre x (List.mem_cons_of_mem s hx)
      cases s with
      | none => simpa [callerFile] using ih hrest
      | some g =>
        have hg : (g != "" && g != own && g != caller) = false := hs
        simpa [callerFile, hg] using ih hrest
  · intro stack hall
    induction stack with
    | nil => rfl
    | cons s rest ih =>
      have hs := hall s (List.mem_cons_self s rest)
      have hrest : ∀ x ∈ rest, qualifiesFrame own caller x = false :=
        fun x hx => hall x (List.mem_cons_of_mem s hx)
      cases s with
      | none => simpa [callerFile] using ih hrest
      | some g =>
        have hg : (g != "" && g != own && g != caller) = false := hs
        simpa [callerFile, hg] using ih hrest

theorem callerFile_returns_first_qualifying_frame_witness :
    callerFile "/src/common.ts" "/src/decorators/run-with-piscina.decorator.ts"
      ([none, some "/src/common.ts", some "/src/decorators/run-with-piscina.decorator.ts"] ++
        some "/app/example.service.ts" :: [some "/app/main.ts"]) =
      some "/app/example.service.ts" ∧
    callerFile "/src/common.ts" "/src/decorators/run-with-piscina.decorator.ts"
      [none, some "", some "/src/common.ts"] = none :=
  ⟨(callerFile_returns_first_qualifying_frame "/src/common.ts"
      "/src/decorators/run-with-piscina.decorator.ts").1
      [none, some "/src/common.ts", some "/src/decorators/run-with-piscina.decorator.ts"]
      [some "/app/main.ts"] "/app/example.service.ts" (by decide) (by decide),
   (callerFile_returns_first_qualifying_frame "/src/common.ts"
      "/src/decorators/run-with-piscina.decorator.ts").2
      [none, some "", some "/src/common.ts"] (by decide)⟩

/-- A `WorkerPathEnv` where `package.json` exists but is malformed (its
read or parse throws), while the process runs in an ESM context
(`typeof module === "undefined"`), compiled JavaScript, worker files
present on disk. -/
def fallbackEnv : WorkerPathEnv :=
  { packageJsonExists := true, packageJsonParses := false, packageJsonType := none,
    moduleIsUndefined := true, filenameEndsWithTs := false, dirname := "/dist",
    fileExists := fun _ => true }

/-- C8 counterexample: with a malformed `package.json` the catch-block
fallback decides by the runtime test, so the dynamic-import worker file
is selected although `package.json` does not declare `type: "module"` —
contradicting the claim that in every such case the synchronous-require
worker file is chosen. -/
theorem worker_selection_ignores_declaration_on_parse_error :
    declaresModuleType fallbackEnv = false ∧
    selectedWorkerName fallbackEnv = "run-with-piscina.worker" ∧
    workerPathFactory fallbackEnv = .ok "/dist/run-with-piscina.worker.js" ∧
    "run-with-piscina.worker" ≠ "run-with-piscina.worker.cjs" :=
  ⟨rfl, rfl, rfl, by decide⟩

/-- C8 (amended): the worker entry point is selected as follows — a
well-formed `package.json` declaring `type: "module"` selects the
dynamic-import worker file; a `package.json` whose read or parse throws
falls back to the runtime test `typeof module === "undefined"`; a missing
`package.json`, or a well-formed one not declaring `type: "module"`,
selects the synchronous-require worker file.  The extension matches the
running code (`.ts` vs `.js`), and when the selected worker file does not
exist on disk the factory throws `Worker file not found: ...`, failing
startup. -/
theorem worker_path_selection_characterization (e : WorkerPathEnv) :
    (declaresModuleType e = true → selectedWorkerName e = "run-with-piscina.worker") ∧
    (e.packageJsonExists = true → e.packageJsonParses = false →
      selectedWorkerName e =
        (if e.moduleIsUndefined then "run-with-piscina.worker"
         else "run-with-piscina.worker.cjs")) ∧
    ((e.packageJsonExists = false ∨
        (e.packageJsonParses = true ∧ e.packageJsonType ≠ some "module")) →
      selectedWorkerName e = "run-with-piscina.worker.cjs") ∧
    selectedExtension e = (if e.filenameEndsWithTs then "ts" else "js") ∧
    (e.fileExists (selectedPath e) = true → workerPathFactory e = .ok (selectedPath e)) ∧
    (e.fileExists (selectedPath e) = false →
      workerPathFactory e = .error ("Worker file not found: " ++ selectedPath e)) := by
  refine ⟨?_, ?_, ?_, rfl, ?_, ?_⟩
  · intro hd
    simp only [declaresModuleType, Bool.and_eq_true] at hd
    obtain ⟨⟨h1, h2⟩, h3⟩ := hd
    simp [selectedWorkerName, isESMOf, h1, h2, h3]
  · intro h1 h2
    simp [selectedWorkerName, isESMOf, h1, h2]
  · intro hd
    rcases hd with h1 | ⟨h2, h3⟩
    · simp [selectedWorkerName, isESMOf, h1]
    · have h4 : (e.packageJsonType == some "module") = false := by simpa using h3
      cases hex : e.packageJsonExists with
      | false => simp [selectedWorkerName, isESMOf, hex]
      | true => simp [selectedWorkerName, isESMOf, hex, h2, h4]
  · intro hex
    simp [workerPathFactory, hex]
  · intro hex
    simp [workerPathFactory, hex]

/-- A deployment with a well-formed CommonJS `package.json`, running
TypeScript, where no worker file exists on disk. -/
def cjsEnv : WorkerPathEnv :=
  { packageJsonExists := true, packageJsonParses := true, packageJsonType := some "commonjs",
    moduleIsUndefined := false, filenameEndsWithTs := true, dirname := "/d",
    fileExists := fun _ => false }

/-- A deployment with a well-formed `package.json` declaring
`type: "module"`, compiled JavaScript, worker files present. -/
def esmEnv : WorkerPathEnv :=
  { packageJsonExists := true, packageJsonParses := true, packageJsonType := some "module",
    moduleIsUndefined := false, filenameEndsWithTs := false, dirname := "/d",
    fileExists := fun _ => true }

theorem worker_path_selection_characterization_witness :
    selectedWorkerName esmEnv = "run-with-piscina.worker" ∧
    selectedWorkerName fallbackEnv =
      (if fallbackEnv.moduleIsUndefined then "run-with-piscina.worker"
       else "run-with-piscina.worker.cjs") ∧
    selectedWorkerName cjsEnv = "run-with-piscina.worker.cjs" ∧
    workerPathFactory fallbackEnv = .ok (selectedPath fallbackEnv) ∧
    workerPathFactory cjsEnv = .error ("Worker file not found: " ++ selectedPath cjsEnv) :=
  ⟨(worker_path_selection_characterization esmEnv).1 rfl,
   (worker_path_selection_characterization fallbackEnv).2.1 rfl rfl,
   (worker_path_selection_characterization cjsEnv).2.2.1 (Or.inr ⟨rfl, by decide⟩),
   (worker_path_selection_characterization fallbackEnv).2.2.2.2.1 rfl,
   (worker_path_selection_characterization cjsEnv).2.2.2.2.2 rfl⟩

/-- Is this property a function? (the `typeof instance[name] === "function"`
test of `scanProvider`). -/
def isFnProp : Option InstProp → Bool
  | some (.jsFunc _) => true
  | _ => false

/-- Does scanning reach `patchMethod` for this method: the property is a
function and carries `@RunWithPiscina` metadata. -/
def isOffloadedFnMethod (c : ClassDef) (name : String) : Bool :=
  isFnProp (getProp c name) && (lookupRunMeta c name).isSome

/-- Does the class carry at least one offloaded method that scanning will
try to patch. -/
def hasOffloadedMethod (c : ClassDef) : Bool :=
  (methodNames c).any (fun n => isOffloadedFnMethod c n)

/-- The offending configuration of claim C4: a provider whose instance
carries an offloaded method while its host module lacks the
`@PiscinaEnabled` enablement marker. -/
def moduleMarkerMissing (w : MainWrapper) : Bool :=
  match w.inst, w.host with
  | some c, some m => hasOffloadedMethod c && m.enabledMeta.isNone
  | _, _ => false

/-- The host module's name, used in the startup error message. -/
def wrapperModuleName (w : MainWrapper) : String :=
  match w.host with
  | some m => m.name
  | none => ""

lemma scanMethods_error_of_any (w : MainWrapper) (c : ClassDef) (m : ModuleDef)
    (hhost : w.host = some m) (hmeta : m.enabledMeta = none) :
    ∀ ns : List String, ns.any (fun n => isOffloadedFnMethod c n) = true →
      scanMethods w c ns =
        .error ("Module " ++ m.name ++ " does not have @PiscinaEnabled decorator") := by
  intro ns
  induction ns with
  | nil => intro hany; simp at hany
  | cons n rest ih =>
    intro hany
    by_cases hn : isOffloadedFnMethod c n = true
    · rw [isOffloadedFnMethod, Bool.and_eq_true] at hn
      obtain ⟨hf1, hf2⟩ := hn
      cases hg : getProp c n with
      | none => rw [hg] at hf1; simp [isFnProp] at hf1
      | some p =>
        cases p with
        | jsVal v => rw [hg] at hf1; simp [isFnProp] at hf1
        | jsFunc f =>
          rcases Option.isSome_iff_exists.1 hf2 with ⟨fname, hl⟩
          simp only [scanMethods, hg, hl, patchMethod, hhost, hmeta]
          rfl
    · have hn' : isOffloadedFnMethod c n = false := by simpa using hn
      have hrest : rest.any (fun x => isOffloadedFnMethod c x) = true := by
        simpa [List.any_cons, hn'] using hany
      cases hg : getProp c n with
      | none => simpa [scanMethods, hg] using ih hrest
      | some p =>
        cases p with
        | jsVal v => simpa [scanMethods, hg] using ih hrest
        | jsFunc f =>
          have hl : lookupRunMeta c n = none := by
            have : isFnProp (getProp c n) = true := by rw [hg]; rfl
            simpa [isOffloadedFnMethod, this] using hn'
          simpa [scanMethods, hg, hl] using ih hrest

lemma scanMethods_ok_of_meta (w : MainWrapper) (c : ClassDef) (m : ModuleDef) (mfile : String)
    (hhost : w.host = some m) (hmeta : m.enabledMeta = some mfile) :
    ∀ ns : List String, ∃ l, scanMethods w c ns = .ok l := by
  intro ns
  induction ns with
  | nil => exact ⟨[], rfl⟩
  | cons n rest ih =>
    obtain ⟨l, hl⟩ := ih
    cases hg : getProp c n with
    | none => exact ⟨l, by simp [scanMethods, hg, hl]⟩
    | some p =>
      cases p with
      | jsVal v => exact ⟨l, by simp [scanMethods, hg, hl]⟩
      | jsFunc f =>
        cases hm : lookupRunMeta c n with
        | none => exact ⟨l, by simp [scanMethods, hg, hm, hl]⟩
        | some fname =>
          refine ⟨(⟨⟨fname, c.className⟩, ⟨mfile, m.name⟩, n,
            !w.isDependencyTreeStatic⟩ : Stub) :: l, ?_⟩
          simp only [scanMethods, hg, hm, patchMethod, hhost, hmeta, hl]
          rfl

lemma scanMethods_ok_of_no_offload (w : MainWrapper) (c : ClassDef) :
    ∀ ns : List String, ns.any (fun n => isOffloadedFnMethod c n) = false →
      scanMethods w c ns = .ok [] := by
  intro ns
  induction ns with
  | nil => intro _; rfl
  | cons n rest ih =>
    intro hany
    rw [List.any_cons, Bool.or_eq_false_iff] at hany
    obtain ⟨hn, hrest⟩ := hany
    cases hg : getProp c n with
    | none => simpa [scanMethods, hg] using ih hrest
    | some p =>
      cases p with
      | jsVal v => simpa [scanMethods, hg] using ih hrest
      | jsFunc f =>
        have hl : lookupRunMeta c n = none := by
          have hfn : isFnProp (getProp c n) = true := by rw [hg]; rfl
          simpa [isOffloadedFnMethod, hfn] using hn
        simpa [scanMethods, hg, hl] using ih hrest

lemma scanProvider_error_of_offending (w : MainWrapper)
    (hoff : moduleMarkerMissing w = true) :
    scanProvider w =
      .error ("Module " ++ wrapperModuleName w ++
        " does not have @PiscinaEnabled decorator") := by
  cases hi : w.inst with
  | none => simp [moduleMarkerMissing, hi] at hoff
  | some c =>
    cases hh : w.host with
    | none => simp [moduleMarkerMissing, hi, hh] at hoff
    | some m =>
      simp only [moduleMarkerMissing, hi, hh, Bool.and_eq_true] at hoff
      obtain ⟨h1, h2⟩ := hoff
      have hme : m.enabledMeta = none := Option.isNone_iff_eq_none.1 h2
      have herr := scanMethods_error_of_any w c m hh hme (methodNames c) h1
      simp [scanProvider, hi, wrapperModuleName, hh, herr]

lemma scanProvider_ok_of_not_offending (w : MainWrapper)
    (hhost : w.host.isSome = true) (hoff : moduleMarkerMissing w = false) :
    ∃ l, scanProvider w = .ok l := by
  cases hi : w.inst with
  | none => exact ⟨[], by simp [scanProvider, hi]⟩
  | some c =>
    rcases Option.isSome_iff_exists.1 hhost with ⟨m, hh⟩
    simp only [moduleMarkerMissing, hi, hh] at hoff
    cases hme : m.enabledMeta with
    | some mfile =>
      obtain ⟨l, hl⟩ := scanMethods_ok_of_meta w c m mfile hh hme (methodNames c)
      exact ⟨l, by simp [scanProvider, hi, hl]⟩
    | none =>
      have h1 : hasOffloadedMethod c = false := by
        rw [hme] at hoff
        simpa using hoff
      have hok := scanMethods_ok_of_no_offload w c (methodNames c) h1
      exact ⟨[], by simp [scanProvider, hi, hok]⟩

/-- C4: on the main thread, if any provider carries an offloaded method
while its host module lacks the `@PiscinaEnabled` marker, then
`onModuleInit` itself throws — startup fails before any call is
dispatched — and the error message names an offending module (`Module
<name> does not have @PiscinaEnabled decorator`).  The hypothesis that
every wrapper has a host module reflects the DI container invariant that
discovered providers belong to a module. -/
theorem missing_piscina_enabled_marker_fails_startup
    (providers : List MainWrapper)
    (hhost : ∀ w ∈ providers, w.host.isSome = true)
    (hoff : ∃ w ∈ providers, moduleMarkerMissing w = true) :
    ∃ w ∈ providers, moduleMarkerMissing w = true ∧
      onModuleInit true providers =
        .error ("Module " ++ wrapperModuleName w ++
          " does not have @PiscinaEnabled decorator") := by
  revert hhost hoff
  induction providers with
  | nil =>
    intro hhost hoff
    rcases hoff with ⟨w, hw, _⟩
    simp at hw
  | cons w0 rest ih =>
    intro hhost hoff
    by_cases h0 : moduleMarkerMissing w0 = true
    · refine ⟨w0, List.mem_cons_self w0 rest, h0, ?_⟩
      have herr := scanProvider_error_of_offending w0 h0
      simp only [onModuleInit, if_true, scanAll, herr]
      rfl
    · have h0' : moduleMarkerMissing w0 = false := by simpa using h0
      obtain ⟨l, hok⟩ :=
        scanProvider_ok_of_not_offending w0 (hhost w0 (List.mem_cons_self w0 rest)) h0'
      have hoffrest : ∃ w ∈ rest, moduleMarkerMissing w = true := by
        rcases hoff with ⟨w, hw, hwt⟩
        rcases List.mem_cons.1 hw with rfl | hmem
        · exact absurd hwt h0
        · exact ⟨w, hmem, hwt⟩
      have hhostrest : ∀ w ∈ rest, w.host.isSome = true :=
        fun w hw => hhost w (List.mem_cons_of_mem w0 hw)
      obtain ⟨w, hwmem, hwt, hres⟩ := ih hhostrest hoffrest
      refine ⟨w, List.mem_cons_of_mem w0 hwmem, hwt, ?_⟩
      simp only [onModuleInit, if_true] at hres ⊢
      simp only [scanAll, hok, hres]
      rfl

theorem missing_piscina_enabled_marker_fails_startup_witness :
    ∃ w ∈ [nakedWrapper], moduleMarkerMissing w = true ∧
      onModuleInit true [nakedWrapper] =
        .error ("Module " ++ wrapperModuleName w ++
          " does not have @PiscinaEnabled decorator") :=
  missing_piscina_enabled_marker_fails_startup [nakedWrapper]
    (by decide) ⟨nakedWrapper, List.mem_cons_self nakedWrapper [], rfl⟩
